import Mathlib

/-!  Verification of the financial simulation engine of the Portfolio-Analysis
repository: a shallow embedding of `analytics/performance.py` together with
the projection-aggregation loop of `backend/api/routers/portfolio.py`, and
proofs of the specified properties.  Dollar amounts and rates are modelled as
exact rationals (the Python code computes with floats); the daily fee factors
of `calculate_portfolio_returns` involve the real exponent 1/252 and are
therefore modelled over the reals. -/

set_option maxRecDepth 8000

namespace PortfolioAnalysis

/-- One row of the year-by-year ledger built by `project_portfolio_with_taxes`
(performance.py lines 243-254). -/
structure YearRecord where
  year : ℕ
  starting_value : ℚ
  cash_flow : ℚ
  after_cash_flow : ℚ
  growth : ℚ
  taxes : ℚ
  fees : ℚ
  ending_value : ℚ
  annual_return : ℚ
  deferred_tax_liability : ℚ
deriving DecidableEq

/-- The mutable loop state of `project_portfolio_with_taxes`
(performance.py lines 197-204). -/
structure ProjState where
  portfolio_value : ℚ
  total_fees : ℚ
  total_taxes : ℚ
  total_cash_flows : ℚ
  total_contributions : ℚ
  deferred_tax_liability : ℚ
  recs : List YearRecord
deriving DecidableEq

/-- The body of one iteration of the year loop of
`project_portfolio_with_taxes` (performance.py lines 206-254): add the cash
flow, grow the adjusted balance, tax the growth when taxable, deduct fees,
and snapshot the deferred liability. -/
def projStep (war total_fee_rate annual_cash_flow tax_rate : ℚ)
    (is_taxable is_tax_deferred : Bool) (year : ℕ) (pv : ℚ) : YearRecord :=
  let after_cash_flow := pv + annual_cash_flow
  let growth := after_cash_flow * war
  let after_growth := after_cash_flow + growth
  let taxes := if is_taxable ∧ tax_rate > 0 then growth * tax_rate else 0
  let after_taxes := after_growth - taxes
  let fees := after_taxes * total_fee_rate
  let ending_value := after_taxes - fees
  { year := year
    starting_value := pv
    cash_flow := annual_cash_flow
    after_cash_flow := after_cash_flow
    growth := growth
    taxes := taxes
    fees := fees
    ending_value := ending_value
    annual_return := war
    deferred_tax_liability := if is_tax_deferred then ending_value * tax_rate else 0 }

/-- The year loop of `project_portfolio_with_taxes` (performance.py lines
206-254), threading the loop state; the first argument of the recursion is
the number of remaining iterations, the second the 1-based year index. -/
def projLoop (war total_fee_rate annual_cash_flow tax_rate : ℚ)
    (is_taxable is_tax_deferred : Bool) : ℕ → ℕ → ProjState → ProjState
  | 0, _, s => s
  | n + 1, year, s =>
    let r := projStep war total_fee_rate annual_cash_flow tax_rate
      is_taxable is_tax_deferred year s.portfolio_value
    projLoop war total_fee_rate annual_cash_flow tax_rate is_taxable is_tax_deferred n (year + 1)
      { portfolio_value := r.ending_value
        total_fees := s.total_fees + r.fees
        total_taxes := s.total_taxes + r.taxes
        total_cash_flows := s.total_cash_flows + annual_cash_flow
        total_contributions := s.total_contributions +
          (if is_tax_deferred ∧ annual_cash_flow > 0 then annual_cash_flow else 0)
        deferred_tax_liability := r.deferred_tax_liability
        recs := s.recs ++ [r] }

/-- The ledger the year loop appends, as a pure recursion: the list of records
produced by `n` iterations starting at year index `year` from value `pv`. -/
def projRecords (war total_fee_rate annual_cash_flow tax_rate : ℚ)
    (is_taxable is_tax_deferred : Bool) : ℕ → ℕ → ℚ → List YearRecord
  | 0, _, _ => []
  | n + 1, year, pv =>
    projStep war total_fee_rate annual_cash_flow tax_rate is_taxable is_tax_deferred year pv ::
      projRecords war total_fee_rate annual_cash_flow tax_rate is_taxable is_tax_deferred
        n (year + 1)
        (projStep war total_fee_rate annual_cash_flow tax_rate
          is_taxable is_tax_deferred year pv).ending_value

/-- The value of `f` on the last record of a ledger, or the default `d` when
the ledger is empty (the shape in which the loop leaves `portfolio_value`
and `deferred_tax_liability`). -/
def lastField (f : YearRecord → ℚ) (d : ℚ) : List YearRecord → ℚ
  | [] => d
  | r :: rs => lastField f (f r) rs

/-- performance.py lines 188-191: the blended annual rate, summing
`allocation.get(class, 0) * rate` over the growth-rate table. -/
def weightedAnnualReturn (asset_class_allocation growth_rates : List (String × ℚ)) : ℚ :=
  (growth_rates.map (fun cg => ((asset_class_allocation.lookup cg.1).getD 0) * cg.2)).sum

/-- The result dictionary of `project_portfolio_with_taxes`
(performance.py lines 256-265). -/
structure ProjectionResult where
  weighted_annual_return : ℚ
  final_portfolio_value : ℚ
  total_fees : ℚ
  total_taxes : ℚ
  total_cash_flows : ℚ
  deferred_tax_liability : ℚ
  account_type : String
  yearly_projections : List YearRecord
deriving DecidableEq

/-- The loop state as initialised at performance.py lines 197-204. -/
def initState (initial_value : ℚ) : ProjState :=
  { portfolio_value := initial_value
    total_fees := 0
    total_taxes := 0
    total_cash_flows := 0
    total_contributions := initial_value
    deferred_tax_liability := 0
    recs := [] }

/-- Shallow embedding of `project_portfolio_with_taxes`
(performance.py lines 148-265).  `years` is an integer as in Python;
`range(1, years + 1)` iterates `years.toNat` times (zero times when
`years ≤ 0`).  The account-type flags mirror lines 194-195; the function
performs no input validation, exactly as the source does. -/
def project_portfolio_with_taxes (asset_class_allocation growth_rates : List (String × ℚ))
    (total_fee_rate initial_value annual_cash_flow tax_rate : ℚ)
    (account_type : String) (years : ℤ) : ProjectionResult :=
  let war := weightedAnnualReturn asset_class_allocation growth_rates
  let is_taxable := decide (account_type = "Brokerage")
  let is_tax_deferred := decide (account_type = "Traditional IRA")
  let s := projLoop war total_fee_rate annual_cash_flow tax_rate is_taxable is_tax_deferred
    years.toNat 1 (initState initial_value)
  { weighted_annual_return := war
    final_portfolio_value := s.portfolio_value
    total_fees := s.total_fees
    total_taxes := s.total_taxes
    total_cash_flows := s.total_cash_flows
    deferred_tax_liability := s.deferred_tax_liability
    account_type := account_type
    yearly_projections := s.recs }

theorem projLoop_recs (war fee cash tax : ℚ) (tb td : Bool) :
    ∀ (n year : ℕ) (s : ProjState),
      (projLoop war fee cash tax tb td n year s).recs =
        s.recs ++ projRecords war fee cash tax tb td n year s.portfolio_value := by
  intro n
  induction n with
  | zero => intro year s; simp [projLoop, projRecords]
  | succ n ih =>
    intro year s
    simp only [projLoop, projRecords]
    rw [ih]
    simp

theorem projLoop_fees (war fee cash tax : ℚ) (tb td : Bool) :
    ∀ (n year : ℕ) (s : ProjState),
      (projLoop war fee cash tax tb td n year s).total_fees =
        s.total_fees +
          ((projRecords war fee cash tax tb td n year s.portfolio_value).map
            YearRecord.fees).sum := by
  intro n
  induction n with
  | zero => intro year s; simp [projLoop, projRecords]
  | succ n ih =>
    intro year s
    simp only [projLoop, projRecords]
    rw [ih]
    simp [add_assoc]

theorem projLoop_taxes (war fee cash tax : ℚ) (tb td : Bool) :
    ∀ (n year : ℕ) (s : ProjState),
      (projLoop war fee cash tax tb td n year s).total_taxes =
        s.total_taxes +
          ((projRecords war fee cash tax tb td n year s.portfolio_value).map
            YearRecord.taxes).sum := by
  intro n
  induction n with
  | zero => intro year s; simp [projLoop, projRecords]
  | succ n ih =>
    intro year s
    simp only [projLoop, projRecords]
    rw [ih]
    simp [add_assoc]

theorem projLoop_cash_flows (war fee cash tax : ℚ) (tb td : Bool) :
    ∀ (n year : ℕ) (s : ProjState),
      (projLoop war fee cash tax tb td n year s).total_cash_flows =
        s.total_cash_flows +
          ((projRecords war fee cash tax tb td n year s.portfolio_value).map
            YearRecord.cash_flow).sum := by
  intro n
  induction n with
  | zero => intro year s; simp [projLoop, projRecords]
  | succ n ih =>
    intro year s
    simp only [projLoop, projRecords]
    rw [ih]
    simp [projStep, add_assoc]

theorem projLoop_value (war fee cash tax : ℚ) (tb td : Bool) :
    ∀ (n year : ℕ) (s : ProjState),
      (projLoop war fee cash tax tb td n year s).portfolio_value =
        lastField YearRecord.ending_value s.portfolio_value
          (projRecords war fee cash tax tb td n year s.portfolio_value) := by
  intro n
  induction n with
  | zero => intro year s; simp [projLoop, projRecords, lastField]
  | succ n ih =>
    intro year s
    simp only [projLoop, projRecords]
    rw [ih]
    simp [lastField]

theorem projLoop_deferred (war fee cash tax : ℚ) (tb td : Bool) :
    ∀ (n year : ℕ) (s : ProjState),
      (projLoop war fee cash tax tb td n year s).deferred_tax_liability =
        lastField YearRecord.deferred_tax_liability s.deferred_tax_liability
          (projRecords war fee cash tax tb td n year s.portfolio_value) := by
  intro n
  induction n with
  | zero => intro year s; simp [projLoop, projRecords, lastField]
  | succ n ih =>
    intro year s
    simp only [projLoop, projRecords]
    rw [ih]
    simp [lastField]

theorem projRecords_length (war fee cash tax : ℚ) (tb td : Bool) :
    ∀ (n year : ℕ) (pv : ℚ),
      (projRecords war fee cash tax tb td n year pv).length = n := by
  intro n
  induction n with
  | zero => intro year pv; simp [projRecords]
  | succ n ih => intro year pv; simp [projRecords, ih]

theorem projRecords_mem (war fee cash tax : ℚ) (tb td : Bool) :
    ∀ (n year : ℕ) (pv : ℚ) (r : YearRecord),
      r ∈ projRecords war fee cash tax tb td n year pv →
      r.after_cash_flow = r.starting_value + cash ∧
      r.cash_flow = cash ∧
      r.growth = r.after_cash_flow * war ∧
      r.taxes = (if tb ∧ tax > 0 then r.growth * tax else 0) ∧
      r.fees = (r.starting_value + cash + r.growth - r.taxes) * fee ∧
      r.ending_value = r.starting_value + cash + r.growth - r.taxes - r.fees ∧
      r.annual_return = war ∧
      r.deferred_tax_liability = (if td then r.ending_value * tax else 0) := by
  intro n
  induction n with
  | zero => intro year pv r h; simp [projRecords] at h
  | succ n ih =>
    intro year pv r h
    simp only [projRecords, List.mem_cons] at h
    rcases h with h | h
    · subst h
      exact ⟨rfl, rfl, rfl, rfl, rfl, rfl, rfl, rfl⟩
    · exact ih _ _ r h

theorem projRecords_head_start (war fee cash tax : ℚ) (tb td : Bool) :
    ∀ (n year : ℕ) (pv : ℚ) (r : YearRecord),
      (projRecords war fee cash tax tb td n year pv).head? = some r →
      r.starting_value = pv := by
  intro n
  cases n with
  | zero => intro year pv r h; simp [projRecords] at h
  | succ n =>
    intro year pv r h
    simp only [projRecords, List.head?_cons, Option.some.injEq] at h
    subst h
    rfl

theorem projRecords_chain (war fee cash tax : ℚ) (tb td : Bool) :
    ∀ (n year : ℕ) (pv : ℚ),
      List.Chain' (fun a b => a.ending_value = b.starting_value)
        (projRecords war fee cash tax tb td n year pv) := by
  intro n
  induction n with
  | zero => intro year pv; simp [projRecords]
  | succ n ih =>
    intro year pv
    simp only [projRecords]
    refine List.chain'_cons'.2 ⟨?_, ih _ _⟩
    intro b hb
    exact (projRecords_head_start war fee cash tax tb td n (year + 1) _ b hb).symm

theorem projRecords_years (war fee cash tax : ℚ) (tb td : Bool) :
    ∀ (n year : ℕ) (pv : ℚ),
      (projRecords war fee cash tax tb td n year pv).map YearRecord.year =
        List.range' year n := by
  intro n
  induction n with
  | zero => intro year pv; simp [projRecords]
  | succ n ih => intro year pv; simp [projRecords, List.range'_succ, ih, projStep]

theorem lastField_getLast (f : YearRecord → ℚ) :
    ∀ (l : List YearRecord) (d : ℚ) (r : YearRecord),
      l.getLast? = some r → lastField f d l = f r := by
  intro l
  induction l with
  | nil => intro d r h; simp at h
  | cons a l ih =>
    intro d r h
    cases l with
    | nil =>
      simp only [List.getLast?_singleton, Option.some.injEq] at h
      subst h
      simp [lastField]
    | cons b bs =>
      rw [List.getLast?_cons_cons] at h
      simp only [lastField]
      exact ih (f a) r h

theorem lastField_eq_getD (f : YearRecord → ℚ) (l : List YearRecord) (d : ℚ) :
    lastField f d l = ((l.getLast?).map f).getD d := by
  cases h : l.getLast? with
  | none =>
    rw [List.getLast?_eq_none_iff] at h
    subst h
    simp [lastField]
  | some r => simp [lastField_getLast f l d r h]

theorem project_yearly_eq (al gr : List (String × ℚ)) (fee init cash tax : ℚ)
    (acct : String) (years : ℤ) :
    (project_portfolio_with_taxes al gr fee init cash tax acct years).yearly_projections =
      projRecords (weightedAnnualReturn al gr) fee cash tax
        (decide (acct = "Brokerage")) (decide (acct = "Traditional IRA"))
        years.toNat 1 init := by
  simp [project_portfolio_with_taxes, projLoop_recs, initState]

theorem project_fees_eq (al gr : List (String × ℚ)) (fee init cash tax : ℚ)
    (acct : String) (years : ℤ) :
    (project_portfolio_with_taxes al gr fee init cash tax acct years).total_fees =
      (((project_portfolio_with_taxes al gr fee init cash tax acct years).yearly_projections).map
        YearRecord.fees).sum := by
  rw [project_yearly_eq]
  simp [project_portfolio_with_taxes, projLoop_fees, initState]

theorem project_taxes_eq (al gr : List (String × ℚ)) (fee init cash tax : ℚ)
    (acct : String) (years : ℤ) :
    (project_portfolio_with_taxes al gr fee init cash tax acct years).total_taxes =
      (((project_portfolio_with_taxes al gr fee init cash tax acct years).yearly_projections).map
        YearRecord.taxes).sum := by
  rw [project_yearly_eq]
  simp [project_portfolio_with_taxes, projLoop_taxes, initState]

theorem project_cash_eq (al gr : List (String × ℚ)) (fee init cash tax : ℚ)
    (acct : String) (years : ℤ) :
    (project_portfolio_with_taxes al gr fee init cash tax acct years).total_cash_flows =
      (((project_portfolio_with_taxes al gr fee init cash tax acct years).yearly_projections).map
        YearRecord.cash_flow).sum := by
  rw [project_yearly_eq]
  simp [project_portfolio_with_taxes, projLoop_cash_flows, initState]

theorem project_value_eq (al gr : List (String × ℚ)) (fee init cash tax : ℚ)
    (acct : String) (years : ℤ) :
    (project_portfolio_with_taxes al gr fee init cash tax acct years).final_portfolio_value =
      lastField YearRecord.ending_value init
        ((project_portfolio_with_taxes al gr fee init cash tax acct years).yearly_projections) := by
  rw [project_yearly_eq]
  simp [project_portfolio_with_taxes, projLoop_value, initState]

theorem project_deferred_eq (al gr : List (String × ℚ)) (fee init cash tax : ℚ)
    (acct : String) (years : ℤ) :
    (project_portfolio_with_taxes al gr fee init cash tax acct years).deferred_tax_liability =
      lastField YearRecord.deferred_tax_liability 0
        ((project_portfolio_with_taxes al gr fee init cash tax acct years).yearly_projections) := by
  rw [project_yearly_eq]
  simp [project_portfolio_with_taxes, projLoop_deferred, initState]

/-- C1: every year of the projection applies the fixed per-year transition —
the cash flow is added to the starting value, growth is computed on the
adjusted balance at the blended rate, taxes equal the growth times the tax
rate exactly when the account type is Brokerage and the tax rate is
positive (0 otherwise), and fees are charged on the after-tax value to give
the ending value; and on the concrete scenario (allocation Equity 1.0,
growth rate 0.07, fee rate 0.01, tax rate 0, Brokerage, initial 1, cash
flow 0, one year) the single record has growth 0.07, taxes 0, fees 0.0107
and ending value 1.0593. -/
theorem projection_per_year_transition
    (al gr : List (String × ℚ)) (fee init cash tax : ℚ) (acct : String) (years : ℤ)
    (r : YearRecord)
    (hr : r ∈ (project_portfolio_with_taxes al gr fee init cash tax
      acct years).yearly_projections) :
    (r.after_cash_flow = r.starting_value + cash ∧
     r.growth = r.after_cash_flow * weightedAnnualReturn al gr ∧
     r.taxes = (if acct = "Brokerage" ∧ tax > 0 then r.growth * tax else 0) ∧
     r.fees = (r.after_cash_flow + r.growth - r.taxes) * fee ∧
     r.ending_value = r.after_cash_flow + r.growth - r.taxes - r.fees) ∧
    (project_portfolio_with_taxes [("Equity", 1)] [("Equity", 7/100)] (1/100) 1 0 0
        "Brokerage" 1).yearly_projections =
      [{ year := 1, starting_value := 1, cash_flow := 0, after_cash_flow := 1,
         growth := 7/100, taxes := 0, fees := 107/10000, ending_value := 10593/10000,
         annual_return := 7/100, deferred_tax_liability := 0 }] := by
  rw [project_yearly_eq] at hr
  obtain ⟨h1, h2, h3, h4, h5, h6, h7, h8⟩ :=
    projRecords_mem (weightedAnnualReturn al gr) fee cash tax
      (decide (acct = "Brokerage")) (decide (acct = "Traditional IRA"))
      years.toNat 1 init r hr
  refine ⟨⟨h1, h3, ?_, ?_, ?_⟩, by norm_num [project_portfolio_with_taxes, projLoop, projStep, initState, weightedAnnualReturn, List.lookup]⟩
  · rw [h4]
    simp only [decide_eq_true_eq]
  · rw [h5, h1]
  · rw [h6, h1]

/-- C1 witness: the per-year transition theorem applied to the single record
of the concrete one-year Brokerage scenario. -/
theorem projection_per_year_transition_witness :
    (project_portfolio_with_taxes [("Equity", 1)] [("Equity", 7/100)] (1/100) 1 0 0
        "Brokerage" 1).yearly_projections =
      [{ year := 1, starting_value := 1, cash_flow := 0, after_cash_flow := 1,
         growth := 7/100, taxes := 0, fees := 107/10000, ending_value := 10593/10000,
         annual_return := 7/100, deferred_tax_liability := 0 }] :=
  (projection_per_year_transition [("Equity", 1)] [("Equity", 7/100)] (1/100) 1 0 0
    "Brokerage" 1
    { year := 1, starting_value := 1, cash_flow := 0, after_cash_flow := 1,
      growth := 7/100, taxes := 0, fees := 107/10000, ending_value := 10593/10000,
      annual_return := 7/100, deferred_tax_liability := 0 }
    (by norm_num [project_portfolio_with_taxes, projLoop, projStep, initState, weightedAnnualReturn, List.lookup])).2

/-- C2 counterexample: called with horizon 0 and the unrecognized account
type "Checking", `project_portfolio_with_taxes` raises nothing and returns
a normal result — an empty ledger with the initial value as the final value
and the bogus account type echoed back — so no error is raised before (or
instead of) the per-year loop. -/
theorem projection_no_validation_counterexample :
    (project_portfolio_with_taxes [("Equity", 1)] [("Equity", 7/100)] (1/100) 1 0 (1/4)
        "Checking" 0).yearly_projections = [] ∧
    (project_portfolio_with_taxes [("Equity", 1)] [("Equity", 7/100)] (1/100) 1 0 (1/4)
        "Checking" 0).final_portfolio_value = 1 ∧
    (project_portfolio_with_taxes [("Equity", 1)] [("Equity", 7/100)] (1/100) 1 0 (1/4)
        "Checking" 0).account_type = "Checking" := by
  norm_num [project_portfolio_with_taxes, projLoop, initState]

/-- C2 (amended): `project_portfolio_with_taxes` performs no input
validation.  A horizon `years ≤ 0` yields a normal result with an empty
ledger, the initial value as final value and zero running totals; an
account type that is neither "Brokerage" nor "Traditional IRA" (in
particular any unrecognized string) is accepted and handled exactly like
the tax-exempt Roth IRA path, the result differing only in the echoed
account_type field. -/
theorem projection_no_validation
    (al gr : List (String × ℚ)) (fee init cash tax : ℚ) (acct : String) (years : ℤ) :
    (years ≤ 0 →
      project_portfolio_with_taxes al gr fee init cash tax acct years =
        { weighted_annual_return := weightedAnnualReturn al gr
          final_portfolio_value := init
          total_fees := 0
          total_taxes := 0
          total_cash_flows := 0
          deferred_tax_liability := 0
          account_type := acct
          yearly_projections := [] }) ∧
    (acct ≠ "Brokerage" → acct ≠ "Traditional IRA" →
      project_portfolio_with_taxes al gr fee init cash tax acct years =
        { project_portfolio_with_taxes al gr fee init cash tax "Roth IRA" years with
            account_type := acct }) := by
  constructor
  · intro h
    have hz : years.toNat = 0 := Int.toNat_eq_zero.mpr h
    simp [project_portfolio_with_taxes, hz, projLoop, initState]
  · intro h1 h2
    have e1 : decide (("Roth IRA" : String) = "Brokerage") = false := by decide
    have e2 : decide (("Roth IRA" : String) = "Traditional IRA") = false := by decide
    simp [project_portfolio_with_taxes, decide_eq_false h1, decide_eq_false h2, e1, e2]

/-- C2 witness: the no-validation theorem applied at horizon −3 with the
unrecognized account type "Checking". -/
theorem projection_no_validation_witness :
    project_portfolio_with_taxes [("Equity", 1)] [("Equity", 7/100)] (1/100) 1 0 (1/4)
        "Checking" (-3) =
      { weighted_annual_return := weightedAnnualReturn [("Equity", 1)] [("Equity", 7/100)]
        final_portfolio_value := 1
        total_fees := 0
        total_taxes := 0
        total_cash_flows := 0
        deferred_tax_liability := 0
        account_type := "Checking"
        yearly_projections := [] } :=
  (projection_no_validation [("Equity", 1)] [("Equity", 7/100)] (1/100) 1 0 (1/4)
    "Checking" (-3)).1 (by decide)

/-- C5: in every simulated year the recorded deferred tax liability is that
year's ending value times the tax rate when the account type is Traditional
IRA and 0 for every other account type — recomputed fresh from the year's
own ending balance, independent of prior years' liabilities — and for a
positive horizon the result's headline deferred_tax_liability is the final
year's value. -/
theorem projection_deferred_liability
    (al gr : List (String × ℚ)) (fee init cash tax : ℚ) (acct : String) (years : ℤ) :
    (∀ r ∈ (project_portfolio_with_taxes al gr fee init cash tax
        acct years).yearly_projections,
      r.deferred_tax_liability =
        if acct = "Traditional IRA" then r.ending_value * tax else 0) ∧
    (1 ≤ years →
      ((project_portfolio_with_taxes al gr fee init cash tax
          acct years).yearly_projections.getLast?).map YearRecord.deferred_tax_liability =
        some (project_portfolio_with_taxes al gr fee init cash tax
          acct years).deferred_tax_liability) := by
  constructor
  · intro r hr
    rw [project_yearly_eq] at hr
    have h8 := (projRecords_mem (weightedAnnualReturn al gr) fee cash tax
      (decide (acct = "Brokerage")) (decide (acct = "Traditional IRA"))
      years.toNat 1 init r hr).2.2.2.2.2.2.2
    rw [h8]
    simp only [decide_eq_true_eq]
  · intro hy
    rw [project_deferred_eq, project_yearly_eq]
    have hlen := projRecords_length (weightedAnnualReturn al gr) fee cash tax
      (decide (acct = "Brokerage")) (decide (acct = "Traditional IRA")) years.toNat 1 init
    cases h : (projRecords (weightedAnnualReturn al gr) fee cash tax
        (decide (acct = "Brokerage")) (decide (acct = "Traditional IRA"))
        years.toNat 1 init).getLast? with
    | none =>
      rw [List.getLast?_eq_none_iff] at h
      rw [h] at hlen
      simp at hlen
      omega
    | some r =>
      rw [lastField_getLast YearRecord.deferred_tax_liability _ 0 r h]
      simp

/-- C5 witness: the deferred-liability theorem applied to a one-year
Traditional IRA projection with tax rate 0.2. -/
theorem projection_deferred_liability_witness :
    ((project_portfolio_with_taxes [("Equity", 1)] [("Equity", 7/100)] (1/100) 1 0 (1/5)
        "Traditional IRA" 1).yearly_projections.getLast?).map
      YearRecord.deferred_tax_liability =
    some (project_portfolio_with_taxes [("Equity", 1)] [("Equity", 7/100)] (1/100) 1 0 (1/5)
        "Traditional IRA" 1).deferred_tax_liability :=
  (projection_deferred_liability [("Equity", 1)] [("Equity", 7/100)] (1/100) 1 0 (1/5)
    "Traditional IRA" 1).2 (by decide)

/-- C7: the ledger chains — each year's ending value is the next year's
starting value, the first record starts from the initial portfolio value,
and the records appear in year order 1, 2, …, length. -/
theorem projection_ledger_chain
    (al gr : List (String × ℚ)) (fee init cash tax : ℚ) (acct : String) (years : ℤ) :
    List.Chain' (fun a b => a.ending_value = b.starting_value)
      (project_portfolio_with_taxes al gr fee init cash tax
        acct years).yearly_projections ∧
    (∀ r, (project_portfolio_with_taxes al gr fee init cash tax
        acct years).yearly_projections.head? = some r → r.starting_value = init) ∧
    (project_portfolio_with_taxes al gr fee init cash tax
        acct years).yearly_projections.map YearRecord.year =
      List.range' 1 (project_portfolio_with_taxes al gr fee init cash tax
        acct years).yearly_projections.length := by
  refine ⟨?_, ?_, ?_⟩
  · rw [project_yearly_eq]
    exact projRecords_chain _ _ _ _ _ _ _ _ _
  · intro r hr
    rw [project_yearly_eq] at hr
    exact projRecords_head_start _ _ _ _ _ _ _ _ _ r hr
  · rw [project_yearly_eq, projRecords_years, projRecords_length]

/-- C7 witness: the chain invariant on a concrete two-year projection. -/
theorem projection_ledger_chain_witness :
    List.Chain' (fun a b => a.ending_value = b.starting_value)
      (project_portfolio_with_taxes [("Equity", 1)] [("Equity", 7/100)] (1/100) 1 0 0
        "Brokerage" 2).yearly_projections :=
  (projection_ledger_chain [("Equity", 1)] [("Equity", 7/100)] (1/100) 1 0 0
    "Brokerage" 2).1

/-- C10: the aggregate totals are consistent with the ledger — total_fees,
total_taxes and total_cash_flows are the sums of the corresponding per-year
fields, and final_portfolio_value is the last record's ending value (the
initial value when the ledger is empty). -/
theorem projection_totals_consistent
    (al gr : List (String × ℚ)) (fee init cash tax : ℚ) (acct : String) (years : ℤ) :
    (project_portfolio_with_taxes al gr fee init cash tax acct years).total_fees =
      ((project_portfolio_with_taxes al gr fee init cash tax
        acct years).yearly_projections.map YearRecord.fees).sum ∧
    (project_portfolio_with_taxes al gr fee init cash tax acct years).total_taxes =
      ((project_portfolio_with_taxes al gr fee init cash tax
        acct years).yearly_projections.map YearRecord.taxes).sum ∧
    (project_portfolio_with_taxes al gr fee init cash tax acct years).total_cash_flows =
      ((project_portfolio_with_taxes al gr fee init cash tax
        acct years).yearly_projections.map YearRecord.cash_flow).sum ∧
    (project_portfolio_with_taxes al gr fee init cash tax acct years).final_portfolio_value =
      (((project_portfolio_with_taxes al gr fee init cash tax
        acct years).yearly_projections.getLast?).map YearRecord.ending_value).getD init := by
  refine ⟨project_fees_eq al gr fee init cash tax acct years,
    project_taxes_eq al gr fee init cash tax acct years,
    project_cash_eq al gr fee init cash tax acct years, ?_⟩
  rw [project_value_eq, lastField_eq_getD]

/-- One entry of an aggregate-analysis request (portfolio.py lines 24-29).
In the source the attributes `asset_class_allocation` and `weighted_avg_er`
are derived from the holdings by the `Portfolio` class of
`analytics/portfolio.py`, a file not among the reviewed sources; they are
modelled here as given attributes carried with the input. -/
structure SinglePortfolioData where
  holdings : List (String × ℚ)
  advisory_fee : ℚ
  asset_class_allocation : List (String × ℚ)
  weighted_avg_er : ℚ
  account_type : String
  annual_cash_flow : ℚ
deriving DecidableEq

/-- One entry of the aggregate yearly ledger: the eight dictionary keys
written at portfolio.py lines 316-326. -/
structure AggYearRecord where
  year : ℕ
  starting_value : ℚ
  ending_value : ℚ
  growth : ℚ
  fees : ℚ
  taxes : ℚ
  cash_flow : ℚ
  deferred_tax_liability : ℚ
deriving DecidableEq

/-- The aggregate projections dictionary as initialised at portfolio.py
lines 306-313. -/
structure AggregateProjections where
  weighted_annual_return : ℚ
  final_portfolio_value : ℚ
  total_fees : ℚ
  total_taxes : ℚ
  total_cash_flows : ℚ
  deferred_tax_liability : ℚ
  yearly_projections : List AggYearRecord
deriving DecidableEq

/-- The keys of the aggregate projections dictionary literal written at
portfolio.py lines 306-313; `account_type` is not among them (the per-account
projection result of performance.py line 263 does carry one). -/
def aggregateProjectionKeys : List String :=
  ["weighted_annual_return", "final_portfolio_value", "total_fees", "total_taxes",
   "total_cash_flows", "deferred_tax_liability", "yearly_projections"]

/-- A yearly record as copied into the aggregate ledger on the first
portfolio (portfolio.py lines 316-326). -/
def toAggRec (yp : YearRecord) : AggYearRecord :=
  { year := yp.year
    starting_value := yp.starting_value
    ending_value := yp.ending_value
    growth := yp.growth
    fees := yp.fees
    taxes := yp.taxes
    cash_flow := yp.cash_flow
    deferred_tax_liability := yp.deferred_tax_liability }

/-- Initialisation of the aggregate with the first projection's structure
(portfolio.py lines 304-326). -/
def initAgg (pr : ProjectionResult) : AggregateProjections :=
  { weighted_annual_return := pr.weighted_annual_return
    final_portfolio_value := pr.final_portfolio_value
    total_fees := pr.total_fees
    total_taxes := pr.total_taxes
    total_cash_flows := pr.total_cash_flows
    deferred_tax_liability := pr.deferred_tax_liability
    yearly_projections := pr.yearly_projections.map toAggRec }

/-- In-place addition of one further portfolio's year record into an
aggregate ledger entry (portfolio.py lines 337-343); the `year` key is left
untouched. -/
def addRec (e : AggYearRecord) (yp : YearRecord) : AggYearRecord :=
  { e with
    starting_value := e.starting_value + yp.starting_value
    ending_value := e.ending_value + yp.ending_value
    growth := e.growth + yp.growth
    fees := e.fees + yp.fees
    taxes := e.taxes + yp.taxes
    cash_flow := e.cash_flow + yp.cash_flow
    deferred_tax_liability := e.deferred_tax_liability + yp.deferred_tax_liability }

/-- The indexed loop of portfolio.py lines 335-343: entry `i` of the
aggregate ledger absorbs entry `i` of the new projection; indices beyond the
aggregate's length are ignored, aggregate entries beyond the projection's
length stay unchanged. -/
def addYearly : List AggYearRecord → List YearRecord → List AggYearRecord
  | [], _ => []
  | e :: es, [] => e :: es
  | e :: es, y :: ys => addRec e y :: addYearly es ys

/-- Aggregation of one further portfolio's projection
(portfolio.py lines 327-343): every total is summed, but
`weighted_annual_return` is left at the first portfolio's value. -/
def addAgg (a : AggregateProjections) (pr : ProjectionResult) : AggregateProjections :=
  { weighted_annual_return := a.weighted_annual_return
    final_portfolio_value := a.final_portfolio_value + pr.final_portfolio_value
    total_fees := a.total_fees + pr.total_fees
    total_taxes := a.total_taxes + pr.total_taxes
    total_cash_flows := a.total_cash_flows + pr.total_cash_flows
    deferred_tax_liability := a.deferred_tax_liability + pr.deferred_tax_liability
    yearly_projections := addYearly a.yearly_projections pr.yearly_projections }

/-- `sum(p.holdings.values())` (portfolio.py line 291). -/
def sumHoldings (holdings : List (String × ℚ)) : ℚ :=
  (holdings.map (fun kv => kv.2)).sum

/-- The projection run for one portfolio of the aggregate request
(portfolio.py lines 283-302): its own allocation, its own combined fee rate
`weighted_avg_er + advisory_fee`, its own initial value, cash flow and
account type, the shared request tax rate, and the fixed 10-year horizon. -/
def projectionOf (growth_rates : List (String × ℚ)) (tax_rate : ℚ)
    (p : SinglePortfolioData) : ProjectionResult :=
  project_portfolio_with_taxes p.asset_class_allocation growth_rates
    (p.weighted_avg_er + p.advisory_fee) (sumHoldings p.holdings)
    p.annual_cash_flow tax_rate p.account_type 10

/-- One iteration of the aggregation loop (portfolio.py lines 279-343):
portfolios with no holdings are skipped, the first projected portfolio
initialises the aggregate, later ones are summed into it. -/
def aggStep (growth_rates : List (String × ℚ)) (tax_rate : ℚ)
    (acc : Option AggregateProjections) (p : SinglePortfolioData) :
    Option AggregateProjections :=
  if p.holdings = [] then acc
  else
    match acc with
    | none => some (initAgg (projectionOf growth_rates tax_rate p))
    | some a => some (addAgg a (projectionOf growth_rates tax_rate p))

/-- The aggregation loop of `analyze_aggregate_portfolio`
(portfolio.py lines 277-343), starting from `aggregate_projections = None`. -/
def aggregateProjections (growth_rates : List (String × ℚ)) (tax_rate : ℚ)
    (portfolios : List SinglePortfolioData) : Option AggregateProjections :=
  portfolios.foldl (aggStep growth_rates tax_rate) none

/-- The seven summed per-year fields of an aggregate ledger entry, in the
order starting_value, ending_value, growth, fees, taxes, cash_flow,
deferred_tax_liability. -/
def aggFields (e : AggYearRecord) : ℚ × ℚ × ℚ × ℚ × ℚ × ℚ × ℚ :=
  (e.starting_value, e.ending_value, e.growth, e.fees, e.taxes, e.cash_flow,
    e.deferred_tax_liability)

/-- The same seven fields of a yearly projection record. -/
def yearFields (yp : YearRecord) : ℚ × ℚ × ℚ × ℚ × ℚ × ℚ × ℚ :=
  (yp.starting_value, yp.ending_value, yp.growth, yp.fees, yp.taxes, yp.cash_flow,
    yp.deferred_tax_liability)

/-- The seven fields of year `k` of a projection result (zero tuple when the
index is out of range). -/
def yearFieldsAt (pr : ProjectionResult) (k : ℕ) : ℚ × ℚ × ℚ × ℚ × ℚ × ℚ × ℚ :=
  ((pr.yearly_projections[k]?).map yearFields).getD 0

theorem projectionOf_length (gr : List (String × ℚ)) (tax : ℚ) (p : SinglePortfolioData) :
    (projectionOf gr tax p).yearly_projections.length = 10 := by
  rw [projectionOf, project_yearly_eq, projRecords_length]
  rfl

theorem addYearly_get :
    ∀ (es : List AggYearRecord) (ys : List YearRecord) (k : ℕ) (e : AggYearRecord)
      (y : YearRecord), es[k]? = some e → ys[k]? = some y →
      (addYearly es ys)[k]? = some (addRec e y) := by
  intro es
  induction es with
  | nil => intro ys k e y he hy; simp at he
  | cons a es ih =>
    intro ys k e y he hy
    cases ys with
    | nil => simp at hy
    | cons b ys =>
      cases k with
      | zero =>
        simp only [List.getElem?_cons_zero, Option.some.injEq] at he hy
        subst he
        subst hy
        simp [addYearly]
      | succ k =>
        simp only [List.getElem?_cons_succ] at he hy
        simp only [addYearly, List.getElem?_cons_succ]
        exact ih ys k e y he hy

theorem initAgg_get (pr : ProjectionResult) (k : ℕ) (y : YearRecord)
    (hy : pr.yearly_projections[k]? = some y) :
    (initAgg pr).yearly_projections[k]? = some (toAggRec y) := by
  simp [initAgg, List.getElem?_map, hy]

theorem aggFields_addRec (e : AggYearRecord) (y : YearRecord) :
    aggFields (addRec e y) = aggFields e + yearFields y := by
  simp [aggFields, addRec, yearFields, Prod.mk_add_mk]

theorem aggFold_some (gr : List (String × ℚ)) (tax : ℚ) :
    ∀ (ps : List SinglePortfolioData) (a : AggregateProjections),
      (∀ p ∈ ps, p.holdings ≠ []) →
      ps.foldl (aggStep gr tax) (some a) =
        some (ps.foldl (fun b p => addAgg b (projectionOf gr tax p)) a) := by
  intro ps
  induction ps with
  | nil => intro a _; rfl
  | cons p ps ih =>
    intro a h
    have hp : p.holdings ≠ [] := h p (List.mem_cons_self p ps)
    simp only [List.foldl_cons, aggStep, if_neg hp]
    exact ih _ fun q hq => h q (List.mem_cons_of_mem p hq)

theorem aggStepFold_war (gr : List (String × ℚ)) (tax : ℚ) :
    ∀ (ps : List SinglePortfolioData) (a : AggregateProjections),
      ∃ b, ps.foldl (aggStep gr tax) (some a) = some b ∧
        b.weighted_annual_return = a.weighted_annual_return := by
  intro ps
  induction ps with
  | nil => intro a; exact ⟨a, rfl, rfl⟩
  | cons p ps ih =>
    intro a
    simp only [List.foldl_cons]
    by_cases hp : p.holdings = []
    · simpa [aggStep, hp] using ih a
    · obtain ⟨b, hb, hw⟩ := ih (addAgg a (projectionOf gr tax p))
      exact ⟨b, by simpa [aggStep, hp] using hb, by rw [hw]; rfl⟩

theorem aggFold_field (gr : List (String × ℚ)) (tax : ℚ)
    {M : Type} [AddCommMonoid M] (fA : AggYearRecord → M) (fY : YearRecord → M)
    (hcompat : ∀ e y, fA (addRec e y) = fA e + fY y) :
    ∀ (ps : List SinglePortfolioData) (a : AggregateProjections) (k : ℕ)
      (e : AggYearRecord),
      a.yearly_projections[k]? = some e →
      (∀ p ∈ ps, k < (projectionOf gr tax p).yearly_projections.length) →
      ∃ e', (ps.foldl (fun b p => addAgg b (projectionOf gr tax p))
          a).yearly_projections[k]? = some e' ∧
        fA e' = fA e +
          (ps.map (fun p =>
            (((projectionOf gr tax p).yearly_projections[k]?).map fY).getD 0)).sum := by
  intro ps
  induction ps with
  | nil => intro a k e he _; exact ⟨e, he, by simp⟩
  | cons p ps ih =>
    intro a k e he hlt
    have hk : k < (projectionOf gr tax p).yearly_projections.length :=
      hlt p (List.mem_cons_self p ps)
    obtain ⟨y, hy⟩ : ∃ y, (projectionOf gr tax p).yearly_projections[k]? = some y :=
      ⟨_, List.getElem?_eq_getElem hk⟩
    have he' : (addAgg a (projectionOf gr tax p)).yearly_projections[k]? =
        some (addRec e y) := by
      simp only [addAgg]
      exact addYearly_get _ _ k e y he hy
    obtain ⟨e', h1, h2⟩ := ih (addAgg a (projectionOf gr tax p)) k (addRec e y) he'
      (fun q hq => hlt q (List.mem_cons_of_mem p hq))
    refine ⟨e', by simpa only [List.foldl_cons] using h1, ?_⟩
    rw [h2, hcompat]
    simp [hy, add_assoc]

/-- C4: aggregating two or more portfolios runs each portfolio's projection
independently — each with its own account type, fee rate, initial value and
cash flow, over the shared 10-year horizon — and sums the yearly ledgers
position-wise: at every year index the aggregate record's starting_value,
ending_value, growth, fees, taxes, cash_flow and deferred_tax_liability
are the sums of the corresponding fields of the individual portfolios'
year records. -/
theorem aggregate_yearwise_sum (gr : List (String × ℚ)) (tax : ℚ)
    (ps : List SinglePortfolioData) (k : ℕ)
    (h2 : 2 ≤ ps.length) (hne : ∀ p ∈ ps, p.holdings ≠ []) (hk : k < 10) :
    (aggregateProjections gr tax ps).map
        (fun a => (a.yearly_projections[k]?).map aggFields) =
      some (some ((ps.map (fun p => yearFieldsAt (projectionOf gr tax p) k)).sum)) := by
  cases ps with
  | nil => simp at h2
  | cons p ps' =>
    have hp : p.holdings ≠ [] := hne p (List.mem_cons_self p ps')
    have hfold : aggregateProjections gr tax (p :: ps') =
        some (ps'.foldl (fun b q => addAgg b (projectionOf gr tax q))
          (initAgg (projectionOf gr tax p))) := by
      unfold aggregateProjections
      simp only [List.foldl_cons, aggStep, if_neg hp]
      exact aggFold_some gr tax ps' _ fun q hq => hne q (List.mem_cons_of_mem p hq)
    obtain ⟨y0, hy0⟩ : ∃ y, (projectionOf gr tax p).yearly_projections[k]? = some y :=
      ⟨_, List.getElem?_eq_getElem (by rw [projectionOf_length]; exact hk)⟩
    obtain ⟨e', he', hsum⟩ := aggFold_field gr tax aggFields yearFields aggFields_addRec
      ps' (initAgg (projectionOf gr tax p)) k (toAggRec y0) (initAgg_get _ _ _ hy0)
      (fun q _ => by rw [projectionOf_length]; exact hk)
    rw [hfold]
    simp only [Option.map_some', he', Option.some.injEq]
    have ht : aggFields (toAggRec y0) = yearFields y0 := by
      simp [toAggRec, aggFields, yearFields]
    have hyf : yearFieldsAt (projectionOf gr tax p) k = yearFields y0 := by
      simp [yearFieldsAt, hy0]
    rw [hsum, ht]
    simp [List.map_cons, List.sum_cons, yearFieldsAt, hy0]

theorem aggregate_first_war (gr : List (String × ℚ)) (tax : ℚ) :
    ∀ (ps : List SinglePortfolioData) (p0 : SinglePortfolioData),
      ps.find? (fun p => !p.holdings.isEmpty) = some p0 →
      (aggregateProjections gr tax ps).map AggregateProjections.weighted_annual_return =
        some (projectionOf gr tax p0).weighted_annual_return := by
  intro ps
  induction ps with
  | nil => intro p0 h; simp at h
  | cons p ps ih =>
    intro p0 h
    by_cases hp : p.holdings = []
    · rw [List.find?_cons_of_neg] at h
      · unfold aggregateProjections at ih ⊢
        simp only [List.foldl_cons, aggStep, if_pos hp]
        exact ih p0 h
      · simp [hp]
    · rw [List.find?_cons_of_pos _ (by simp [hp])] at h
      have hpp : p = p0 := by injection h
      subst hpp
      unfold aggregateProjections
      simp only [List.foldl_cons, aggStep, if_neg hp]
      obtain ⟨b, hb, hw⟩ := aggStepFold_war gr tax ps (initAgg (projectionOf gr tax p))
      rw [hb]
      simp [hw, initAgg]

/-- C9: the aggregate's weighted_annual_return is taken from the first
portfolio with non-empty holdings only — the return rates of all later
portfolios are never blended into or summed with it — and the aggregate
projections dictionary carries no account_type key. -/
theorem aggregate_return_from_first (gr : List (String × ℚ)) (tax : ℚ)
    (ps : List SinglePortfolioData) (p0 : SinglePortfolioData)
    (h : ps.find? (fun p => !p.holdings.isEmpty) = some p0) :
    (aggregateProjections gr tax ps).map AggregateProjections.weighted_annual_return =
      some (projectionOf gr tax p0).weighted_annual_return ∧
    "account_type" ∉ aggregateProjectionKeys :=
  ⟨aggregate_first_war gr tax ps p0 h, by decide⟩

/-- A concrete two-portfolio aggregate request used by the witnesses: a Roth
IRA portfolio fully in Equity and a Brokerage portfolio with an empty
allocation map. -/
def samplePortfolioA : SinglePortfolioData :=
  { holdings := [("AAA", 1)]
    advisory_fee := 0
    asset_class_allocation := [("Equity", 1)]
    weighted_avg_er := 0
    account_type := "Roth IRA"
    annual_cash_flow := 0 }

/-- The second sample portfolio (see `samplePortfolioA`). -/
def samplePortfolioB : SinglePortfolioData :=
  { holdings := [("BBB", 1)]
    advisory_fee := 0
    asset_class_allocation := []
    weighted_avg_er := 0
    account_type := "Brokerage"
    annual_cash_flow := 0 }

/-- The growth-rate table used by the witnesses. -/
def sampleGrowth : List (String × ℚ) := [("Equity", 1/10)]

/-- C4 witness: the position-wise summation theorem at year index 0 of the
two-portfolio sample request. -/
theorem aggregate_yearwise_sum_witness :
    (aggregateProjections sampleGrowth 0 [samplePortfolioA, samplePortfolioB]).map
        (fun a => (a.yearly_projections[0]?).map aggFields) =
      some (some (([samplePortfolioA, samplePortfolioB].map
        (fun p => yearFieldsAt (projectionOf sampleGrowth 0 p) 0)).sum)) :=
  aggregate_yearwise_sum sampleGrowth 0 [samplePortfolioA, samplePortfolioB] 0
    (by decide) (by decide) (by decide)

/-- C9 witness: the first-portfolio theorem on the sample request, whose
first portfolio has non-empty holdings. -/
theorem aggregate_return_from_first_witness :
    (aggregateProjections sampleGrowth 0 [samplePortfolioA, samplePortfolioB]).map
        AggregateProjections.weighted_annual_return =
      some (projectionOf sampleGrowth 0 samplePortfolioA).weighted_annual_return ∧
    "account_type" ∉ aggregateProjectionKeys :=
  aggregate_return_from_first sampleGrowth 0 [samplePortfolioA, samplePortfolioB]
    samplePortfolioA (by decide)

/-- The running product `(1 + port_returns).cumprod()` of performance.py
line 38, with `acc` the product accumulated so far. -/
def cumulativeGo (acc : ℚ) : List ℚ → List ℚ
  | [] => []
  | r :: rs => (acc * (1 + r)) :: cumulativeGo (acc * (1 + r)) rs

/-- performance.py line 38: the cumulative-value curve of a return series. -/
def cumulativeCurve (port_returns : List ℚ) : List ℚ :=
  cumulativeGo 1 port_returns

/-- pandas `cummax()` after the first entry: running maximum given the
maximum `m` so far. -/
def cummaxGo (m : ℚ) : List ℚ → List ℚ
  | [] => []
  | x :: xs => max m x :: cummaxGo (max m x) xs

/-- pandas `cummax()`: the first entry is its own running maximum. -/
def cummax : List ℚ → List ℚ
  | [] => []
  | x :: xs => x :: cummaxGo x xs

/-- `Series.min()` of a non-empty series, with default `d` for the empty
series (pandas would give NaN there; no claim touches that case). -/
def listMin : List ℚ → ℚ → ℚ
  | [], d => d
  | x :: xs, _ => xs.foldl min x

/-- The claim-relevant statistics of `performance_stats` (performance.py
lines 37-51).  annualized_return, volatility and the Sharpe ratio involve
the real exponent 252/len and a square root; no claim concerns them, so
they are not modelled here. -/
structure PerfStats where
  total_return : ℚ
  max_drawdown : ℚ
deriving DecidableEq

/-- Shallow embedding of the claim-relevant part of `performance_stats`
(performance.py lines 37-51): cumulative = (1 + returns).cumprod();
total_return = cumulative.iloc[-1] − 1 (the source errors on an empty
series; the default 1 here keeps the function total); max_drawdown =
((cumulative / cumulative.cummax()) − 1).min().  Returns the statistics
together with the cumulative curve, as the source does. -/
def performance_stats (port_returns : List ℚ) : PerfStats × List ℚ :=
  let cumulative := cumulativeCurve port_returns
  ({ total_return := cumulative.getLastD 1 - 1
     max_drawdown :=
       listMin (List.zipWith (fun c m => c / m - 1) cumulative (cummax cumulative)) 0 },
   cumulative)

theorem cumulativeGo_replicate_last (r : ℚ) :
    ∀ (n : ℕ) (a : ℚ),
      (cumulativeGo a (List.replicate n r)).getLastD a = a * (1 + r) ^ n := by
  intro n
  induction n with
  | zero => intro a; simp [cumulativeGo]
  | succ n ih =>
    intro a
    simp only [List.replicate_succ, cumulativeGo, List.getLastD_cons]
    rw [ih]
    ring

theorem cummaxGo_cumulativeGo (r : ℚ) (hr : 0 ≤ r) :
    ∀ (n : ℕ) (a : ℚ), 0 < a →
      cummaxGo a (cumulativeGo a (List.replicate n r)) =
        cumulativeGo a (List.replicate n r) ∧
      ∀ x ∈ cumulativeGo a (List.replicate n r), 0 < x := by
  intro n
  induction n with
  | zero => intro a _; exact ⟨rfl, by simp [cumulativeGo]⟩
  | succ n ih =>
    intro a ha
    have h1 : a ≤ a * (1 + r) := by nlinarith
    have ha' : 0 < a * (1 + r) := by nlinarith
    obtain ⟨ih1, ih2⟩ := ih (a * (1 + r)) ha'
    simp only [List.replicate_succ, cumulativeGo, cummaxGo, max_eq_right h1]
    refine ⟨by rw [ih1], ?_⟩
    intro x hx
    rcases List.mem_cons.mp hx with hx | hx
    · subst hx; exact ha'
    · exact ih2 x hx

theorem foldl_min_le : ∀ (l : List ℚ) (d : ℚ), l.foldl min d ≤ d := by
  intro l
  induction l with
  | nil => intro d; simp
  | cons x xs ih =>
    intro d
    rw [List.foldl_cons]
    exact le_trans (ih (min d x)) (min_le_left d x)

theorem foldl_min_all_zero : ∀ (l : List ℚ), (∀ x ∈ l, x = 0) → l.foldl min 0 = 0 := by
  intro l
  induction l with
  | nil => intro _; rfl
  | cons x xs ih =>
    intro h
    rw [List.foldl_cons, h x (List.mem_cons_self x xs), min_self]
    exact ih fun y hy => h y (List.mem_cons_of_mem x hy)

/-- C8: on a constant return series of value r repeated n ≥ 1 times,
total_return is exactly (1+r)^n − 1 (for every r, negative returns
included), and max_drawdown is 0 when additionally r ≥ 0; and on every
non-empty return series max_drawdown (the minimum of
cumulative / running-max-of-cumulative, minus 1) is ≤ 0. -/
theorem performance_stats_spec (r : ℚ) (n : ℕ) (rets : List ℚ)
    (hn : 1 ≤ n) (hne : rets ≠ []) :
    (performance_stats (List.replicate n r)).1.total_return = (1 + r) ^ n - 1 ∧
    (0 ≤ r → (performance_stats (List.replicate n r)).1.max_drawdown = 0) ∧
    (performance_stats rets).1.max_drawdown ≤ 0 := by
  refine ⟨?_, ?_, ?_⟩
  · simp only [performance_stats, cumulativeCurve]
    rw [cumulativeGo_replicate_last]
    ring
  · intro hr
    obtain ⟨m, rfl⟩ : ∃ m, n = m + 1 := ⟨n - 1, by omega⟩
    have hc : 0 < 1 * (1 + r) := by nlinarith
    obtain ⟨hmax, hpos⟩ := cummaxGo_cumulativeGo r hr m (1 * (1 + r)) hc
    simp only [performance_stats, cumulativeCurve, List.replicate_succ, cumulativeGo,
      cummax, hmax, List.zipWith_cons_cons, listMin]
    rw [div_self (ne_of_gt hc), List.zipWith_same]
    have h0 : (1 : ℚ) - 1 = 0 := by ring
    rw [h0]
    refine foldl_min_all_zero _ ?_
    intro x hx
    obtain ⟨y, hy, hxy⟩ := List.mem_map.mp hx
    rw [← hxy, div_self (ne_of_gt (hpos y hy))]
    ring
  · cases rets with
    | nil => exact absurd rfl hne
    | cons a l =>
      simp only [performance_stats, cumulativeCurve, cumulativeGo, cummax,
        List.zipWith_cons_cons, listMin]
      refine le_trans (foldl_min_le _ _) ?_
      have : 1 * (1 + a) / (1 * (1 + a)) ≤ 1 := by
        rcases eq_or_ne (1 * (1 + a)) 0 with h | h
        · rw [h]; simp
        · rw [div_self h]
      linarith

/-- C8 witness: the summary statistics on the constant series 0.1, 0.1 and
the one-element series 0.1. -/
theorem performance_stats_spec_witness :
    (performance_stats (List.replicate 2 ((1 : ℚ)/10))).1.total_return =
      (1 + (1 : ℚ)/10) ^ 2 - 1 ∧
    (performance_stats (List.replicate 2 ((1 : ℚ)/10))).1.max_drawdown = 0 ∧
    (performance_stats [(1 : ℚ)/10]).1.max_drawdown ≤ 0 :=
  ⟨(performance_stats_spec ((1 : ℚ)/10) 2 [(1 : ℚ)/10] (by norm_num) (by simp)).1,
   (performance_stats_spec ((1 : ℚ)/10) 2 [(1 : ℚ)/10] (by norm_num) (by simp)).2.1
     (by norm_num),
   (performance_stats_spec ((1 : ℚ)/10) 2 [(1 : ℚ)/10] (by norm_num) (by simp)).2.2⟩

/-- One step of `Series.pct_change()`: the relative changes
(q − prev)/prev along the price series, given the previous price. -/
noncomputable def pctChangeGo (prev : ℝ) : List ℝ → List ℝ
  | [] => []
  | q :: qs => (q - prev) / prev :: pctChangeGo q qs

/-- `prices.pct_change().dropna()` (performance.py line 5) for one price
column: the first row carries no return and is dropped. -/
noncomputable def pctChange : List ℝ → List ℝ
  | [] => []
  | p :: rest => pctChangeGo p rest

/-- `[weights[col] for col in returns.columns]` (performance.py line 7): the
weight of every price column looked up in the weights mapping; `none`
models the KeyError raised when a price column is missing from the
weights. -/
def weightsArray (weights : List (String × ℝ)) : List String → Option (List ℝ)
  | [] => some []
  | c :: cs =>
    match weights.lookup c, weightsArray weights cs with
    | some w, some ws => some (w :: ws)
    | _, _ => none

/-- The number of return rows of the price frame: all pandas DataFrame
columns share one date index, so `pct_change().dropna()` has the length of
the first column minus one. -/
def returnRowCount (prices : List (String × List ℝ)) : ℕ :=
  match prices with
  | [] => 0
  | (_, ps) :: _ => ps.length - 1

/-- The fee layers of `calculate_portfolio_returns` (performance.py lines
10-20) — `applyFees` of the specification.  First the advisory-fee daily
factor (1 − fee)^(1/252) is applied to every period as (1 + x)·factor − 1;
then, for each entry of the weights mapping in order whose ticker has a
positive expense ratio, the additional layer
(1 + x)·(((1 − er)^(1/252))^weight) − 1.  The `if expense_ratios:` guard of
line 15 skips the loop entirely for an empty or absent mapping. -/
noncomputable def applyFees (port_returns : List ℝ) (advisory_fee : ℝ)
    (expense_ratios : List (String × ℝ)) (weights : List (String × ℝ)) : List ℝ :=
  let daily_advisory : ℝ := (1 - advisory_fee) ^ ((1 : ℝ)/252)
  let afterAdvisory := port_returns.map fun x => (1 + x) * daily_advisory - 1
  if expense_ratios = [] then afterAdvisory
  else
    weights.foldl
      (fun acc tw =>
        let er := (expense_ratios.lookup tw.1).getD 0
        if er > 0 then
          acc.map fun x => (1 + x) * (((1 - er) ^ ((1 : ℝ)/252)) ^ tw.2) - 1
        else acc)
      afterAdvisory

/-- Shallow embedding of `calculate_portfolio_returns` (performance.py
lines 4-22) — `computeReturns` of the specification.  The prices DataFrame
is a list of (ticker, price column) pairs sharing one date index.  The
weighted row sums iterate the *price* columns, so a weights entry whose
ticker has no price column is never consulted; the only failure is the
KeyError of line 7, when a price column is missing from the weights. -/
noncomputable def calculate_portfolio_returns (prices : List (String × List ℝ))
    (weights : List (String × ℝ)) (advisory_fee : ℝ)
    (expense_ratios : List (String × ℝ)) : Except String (List ℝ) :=
  match weightsArray weights (prices.map fun c => c.1) with
  | none => Except.error "KeyError: a price column is missing from the weights"
  | some warr =>
    Except.ok (applyFees
      ((List.range (returnRowCount prices)).map fun i =>
        (List.zipWith (fun col w => ((col[i]?).getD 0) * w)
          (prices.map fun c => pctChange c.2) warr).sum)
      advisory_fee expense_ratios weights)

/-- The advisory layer of specification §4.2: the daily factor
(1 − fee)^(1/252) applied uniformly to every period as (1 + x)·factor − 1. -/
noncomputable def advisoryLayer (rets : List ℝ) (advisory_fee : ℝ) : List ℝ :=
  rets.map fun x => (1 + x) * ((1 - advisory_fee) ^ ((1 : ℝ)/252)) - 1

/-- One expense-ratio layer of specification §4.2: for the weights entry
`tw` whose ticker carries a positive expense ratio,
(1 + x)·(((1 − er)^(1/252))^weight) − 1 on every period. -/
noncomputable def erLayer (expense_ratios : List (String × ℝ)) (acc : List ℝ)
    (tw : String × ℝ) : List ℝ :=
  let er := (expense_ratios.lookup tw.1).getD 0
  if er > 0 then
    acc.map fun x => (1 + x) * (((1 - er) ^ ((1 : ℝ)/252)) ^ tw.2) - 1
  else acc

theorem erLayer_nil_fold : ∀ (ws : List (String × ℝ)) (acc : List ℝ),
    ws.foldl (erLayer []) acc = acc := by
  intro ws
  induction ws with
  | nil => intro acc; rfl
  | cons w ws ih =>
    intro acc
    rw [List.foldl_cons]
    have h : erLayer [] acc w = acc := by simp [erLayer, List.lookup]
    rw [h, ih]

/-- C6: applyFees applies the advisory-fee daily factor first, uniformly to
every period, and then the expense-ratio layers one per entry of the
weights mapping in iteration order; and with advisory fee 0 and an empty
expense-ratio mapping it is the identity on the return series. -/
theorem applyFees_layers (rets : List ℝ) (advisory_fee : ℝ)
    (expense_ratios weights : List (String × ℝ)) :
    applyFees rets advisory_fee expense_ratios weights =
      weights.foldl (erLayer expense_ratios) (advisoryLayer rets advisory_fee) ∧
    applyFees rets 0 [] weights = rets := by
  constructor
  · by_cases h : expense_ratios = []
    · subst h
      simp only [applyFees, if_pos rfl, erLayer_nil_fold]
      rfl
    · simp only [applyFees, if_neg h]
      rfl
  · simp only [applyFees, if_pos rfl]
    have hfun : (fun x : ℝ => (1 + x) * ((1 - (0 : ℝ)) ^ ((1 : ℝ)/252)) - 1) =
        fun x : ℝ => x := by
      funext x
      rw [sub_zero, Real.one_rpow]
      ring
    rw [hfun]
    exact List.map_id rets

theorem weightsArray_isSome (weights : List (String × ℝ)) :
    ∀ (cs : List String), (weightsArray weights cs).isSome = true ↔
      ∀ c ∈ cs, (weights.lookup c).isSome = true := by
  intro cs
  induction cs with
  | nil => simp [weightsArray]
  | cons c cs ih =>
    rw [List.forall_mem_cons, ← ih]
    simp only [weightsArray]
    cases h1 : weights.lookup c <;> cases h2 : weightsArray weights cs <;>
      simp [h1, h2]

/-- C3 (amended): `calculate_portfolio_returns` succeeds exactly when every
price column has an entry in the weights mapping.  A weights ticker with no
price data is silently ignored — the missing-ticker failure the claim
describes does not exist; the KeyError instead fires when a price column is
absent from the weights mapping. -/
theorem returns_error_condition (prices : List (String × List ℝ))
    (weights : List (String × ℝ)) (advisory_fee : ℝ)
    (expense_ratios : List (String × ℝ)) :
    (∃ v, calculate_portfolio_returns prices weights advisory_fee expense_ratios =
        Except.ok v) ↔
      ∀ c ∈ prices.map (fun p => p.1), (weights.lookup c).isSome = true := by
  have hiff := weightsArray_isSome weights (prices.map fun p => p.1)
  cases hwa : weightsArray weights (prices.map fun p => p.1) with
  | none =>
    rw [hwa] at hiff
    simp only [Option.isSome_none, Bool.false_eq_true, false_iff] at hiff
    constructor
    · rintro ⟨v, hv⟩
      rw [calculate_portfolio_returns, hwa] at hv
      exact absurd hv (by simp)
    · intro h
      exact absurd h hiff
  | some warr =>
    rw [hwa] at hiff
    simp only [Option.isSome_some, true_iff] at hiff
    constructor
    · intro _
      exact hiff
    · intro _
      exact ⟨_, by rw [calculate_portfolio_returns, hwa]⟩

/-- C3 counterexample: with the single price column "A" and a weights
mapping that also names the ticker "X", absent from the price series, the
call returns Ok — the extra weights ticker is silently ignored — rather
than failing with a missing-ticker error. -/
theorem returns_missing_ticker_counterexample :
    (calculate_portfolio_returns [("A", [1, 2, 4])]
      [("A", (1 : ℝ)/2), ("X", (1 : ℝ)/2)] 0 []).isOk = true := by
  have hw : weightsArray [("A", (1 : ℝ)/2), ("X", (1 : ℝ)/2)] ["A"] =
      some [(1 : ℝ)/2] := by
    simp [weightsArray, List.lookup]
  rw [calculate_portfolio_returns]
  simp only [List.map_cons, List.map_nil, hw]
  rfl

end PortfolioAnalysis
